import Mathlib

/- Verification development for the daily technical-indicator ETL pipeline
(`DailyFeatureETL.calculate_features`, `DailyFeatureETL.etl_by_stock`,
`get_kline`, `FeatureDaily.bulk_upsert_to_db`).

Modelling conventions:
* Prices are rationals (ℚ).  The floating-point square root taken by the
  rolling standard deviation (`pandas .rolling(20).std()`) is an
  uninterpreted parameter `sqrtQ : ℚ → ℚ`; no verified property depends on
  its value.
* Calendar dates and timestamps are integers (day counts / clock readings);
  `timedelta(days = n)` is subtraction of `n`, and the
  `strptime`/`strftime` round trip on a valid `YYYY-MM-DD` string is the
  identity.
* A pandas NaN cell is `Option.none`.  A float comparison (`>`/`<`)
  whose right-hand cell is NaN yields `False` in pandas, so the breakout
  columns produced by `calculate_features` are plain booleans that are
  never NaN; `cmpNaN` records this.
* `datetime.now()` is a stream of clock readings `clock : Nat → Int`,
  consumed in call order: the record built at loop index `i` reads the
  clock at call `2*i` (`created_at`) and call `2*i+1` (`updated_at`).
* Input closes are never NaN (the spec's PriceBar always carries a close),
  hence the `ewm` columns are NaN-free and the `pd.isnull` guards on
  them in the record-shaping loop never fire.
-/

/-- One row of the kline table as consumed by the pipeline: instrument id,
trade date (integer day count) and close.  The remaining OHLCV columns are
carried through the pipeline untouched and are omitted from the model. -/
structure Kline where
  stock_id : String
  date : Int
  close : ℚ
  deriving DecidableEq

/-- Mean of a full rolling window, as pandas computes it: sum over length. -/
def listMean (w : List ℚ) : ℚ := w.sum / (w.length : ℚ)

/-- Sample variance with `ddof = 1`, the pandas default for `rolling().std()`
(the std itself is `sqrtQ` of this value). -/
def sampleVar (w : List ℚ) : ℚ :=
  ((w.map (fun x => (x - listMean w) ^ 2)).sum) / ((w.length : ℚ) - 1)

/-- Trailing window of length `w` ending at index `i`: rows `i+1-w` … `i`. -/
def windowEnd (w : Nat) (xs : List ℚ) (i : Nat) : List ℚ :=
  (xs.take (i + 1)).drop (i + 1 - w)

/-- Column produced by pandas `rolling(window=w).f()`: NaN until the window
is full (first `w-1` rows), then `f` of the trailing window. -/
def rollingCol (w : Nat) (f : List ℚ → ℚ) (xs : List ℚ) : List (Option ℚ) :=
  (List.range xs.length).map
    (fun i => if w ≤ i + 1 then some (f (windowEnd w xs i)) else none)

/-- Recursive tail of the exponential moving average: given smoothing
factor `a` and previous value `prev`, each new observation `x` yields
`a*x + (1-a)*prev`. -/
def ewmFrom (a : ℚ) (prev : ℚ) : List ℚ → List ℚ
  | [] => []
  | x :: xs => (a * x + (1 - a) * prev) :: ewmFrom a (a * x + (1 - a) * prev) xs

/-- Pandas `ewm(span=n, adjust=False).mean()`: seeded with the first
observation, smoothing factor `α = 2/(n+1)`; defined for every row. -/
def ewm (span : ℚ) (xs : List ℚ) : List ℚ :=
  match xs with
  | [] => []
  | x :: rest => x :: ewmFrom (2 / (span + 1)) x rest

/-- NaN-propagating binary arithmetic on cells, as in pandas column
arithmetic: the result is NaN when either operand is. -/
def omap2 (f : ℚ → ℚ → ℚ) : Option ℚ → Option ℚ → Option ℚ
  | some a, some b => some (f a b)
  | _, _ => none

/-- Pandas comparison of a float column against a possibly-NaN column:
comparison with NaN yields `false` (never NaN). -/
def cmpNaN (f : ℚ → ℚ → Bool) (x : ℚ) : Option ℚ → Bool
  | none => false
  | some y => f x y

/-- Close column of a kline frame. -/
def closesOf (df : List Kline) : List ℚ := df.map Kline.close

/-- `df['ma5'] = df['close'].rolling(window=5).mean()`. -/
def ma5Col (c : List ℚ) : List (Option ℚ) := rollingCol 5 listMean c

/-- `df['ema12'] = df['close'].ewm(span=12, adjust=False).mean()`. -/
def ema12Col (c : List ℚ) : List ℚ := ewm 12 c

/-- `df['ema26'] = df['close'].ewm(span=26, adjust=False).mean()`. -/
def ema26Col (c : List ℚ) : List ℚ := ewm 26 c

/-- `df['macd_dif'] = df['ema12'] - df['ema26']`. -/
def macdDifCol (c : List ℚ) : List ℚ :=
  List.zipWith (fun a b => a - b) (ema12Col c) (ema26Col c)

/-- `df['macd_dea'] = df['macd_dif'].ewm(span=9, adjust=False).mean()`. -/
def macdDeaCol (c : List ℚ) : List ℚ := ewm 9 (macdDifCol c)

/-- `df['macd_osc'] = df['macd_dif'] - df['macd_dea']`. -/
def macdOscCol (c : List ℚ) : List ℚ :=
  List.zipWith (fun a b => a - b) (macdDifCol c) (macdDeaCol c)

/-- `df['bb_ma20'] = df['close'].rolling(window=20).mean()`. -/
def bbMa20Col (c : List ℚ) : List (Option ℚ) := rollingCol 20 listMean c

/-- `df['bb_std20'] = df['close'].rolling(window=20).std()`: square root of
the rolling sample variance. -/
def bbStd20Col (sqrtQ : ℚ → ℚ) (c : List ℚ) : List (Option ℚ) :=
  (rollingCol 20 sampleVar c).map (Option.map sqrtQ)

/-- `df['bb_upper20'] = df['bb_ma20'] + 2 * df['bb_std20']`. -/
def bbUpperCol (sqrtQ : ℚ → ℚ) (c : List ℚ) : List (Option ℚ) :=
  List.zipWith (omap2 (fun m s => m + 2 * s)) (bbMa20Col c) (bbStd20Col sqrtQ c)

/-- `df['bb_lower20'] = df['bb_ma20'] - 2 * df['bb_std20']`. -/
def bbLowerCol (sqrtQ : ℚ → ℚ) (c : List ℚ) : List (Option ℚ) :=
  List.zipWith (omap2 (fun m s => m - 2 * s)) (bbMa20Col c) (bbStd20Col sqrtQ c)

/-- `df['bb_width20'] = df['bb_upper20'] - df['bb_lower20']`. -/
def bbWidthCol (sqrtQ : ℚ → ℚ) (c : List ℚ) : List (Option ℚ) :=
  List.zipWith (omap2 (fun u l => u - l)) (bbUpperCol sqrtQ c) (bbLowerCol sqrtQ c)

/-- `df['bb_pos20'] = (df['close'] - df['bb_lower20']) / (df['bb_width20'] + 1e-9)`
(the float literal `1e-9` is modelled as the exact rational `1/10^9`). -/
def bbPosCol (sqrtQ : ℚ → ℚ) (c : List ℚ) : List (Option ℚ) :=
  List.zipWith
    (fun x p => omap2 (fun l w => (x - l) / (w + 1 / 1000000000)) p.1 p.2)
    c ((bbLowerCol sqrtQ c).zip (bbWidthCol sqrtQ c))

/-- `df['bb_break_up'] = df['close'] > df['bb_upper20']`: a boolean column,
`false` wherever the band is NaN. -/
def bbBreakUpCol (sqrtQ : ℚ → ℚ) (c : List ℚ) : List Bool :=
  List.zipWith (cmpNaN (fun a b => decide (a > b))) c (bbUpperCol sqrtQ c)

/-- `df['bb_break_dn'] = df['close'] < df['bb_lower20']`: a boolean column,
`false` wherever the band is NaN. -/
def bbBreakDnCol (sqrtQ : ℚ → ℚ) (c : List ℚ) : List Bool :=
  List.zipWith (cmpNaN (fun a b => decide (a < b))) c (bbLowerCol sqrtQ c)

/-- One row of the DataFrame returned by `DailyFeatureETL.calculate_features`:
the input columns plus every computed indicator column.  `Option` marks the
columns that can hold NaN; the `ewm`-derived columns and the boolean
breakout columns never do. -/
structure FeatureRow where
  date : Int
  close : ℚ
  ma5 : Option ℚ
  ema12 : ℚ
  ema26 : ℚ
  macd_dif : ℚ
  macd_dea : ℚ
  macd_osc : ℚ
  bb_ma20 : Option ℚ
  bb_std20 : Option ℚ
  bb_upper20 : Option ℚ
  bb_lower20 : Option ℚ
  bb_width20 : Option ℚ
  bb_pos20 : Option ℚ
  bb_break_up : Bool
  bb_break_dn : Bool
  deriving DecidableEq

/-- Row `i` of the feature frame: every indicator column aligned by index
(the DataFrame assigns each computed column by position). -/
def featureRowAt (sqrtQ : ℚ → ℚ) (df : List Kline) (i : Nat) : FeatureRow :=
  let c := closesOf df
  { date := (df.map Kline.date).getD i 0
    close := c.getD i 0
    ma5 := (ma5Col c).getD i none
    ema12 := (ema12Col c).getD i 0
    ema26 := (ema26Col c).getD i 0
    macd_dif := (macdDifCol c).getD i 0
    macd_dea := (macdDeaCol c).getD i 0
    macd_osc := (macdOscCol c).getD i 0
    bb_ma20 := (bbMa20Col c).getD i none
    bb_std20 := (bbStd20Col sqrtQ c).getD i none
    bb_upper20 := (bbUpperCol sqrtQ c).getD i none
    bb_lower20 := (bbLowerCol sqrtQ c).getD i none
    bb_width20 := (bbWidthCol sqrtQ c).getD i none
    bb_pos20 := (bbPosCol sqrtQ c).getD i none
    bb_break_up := (bbBreakUpCol sqrtQ c).getD i false
    bb_break_dn := (bbBreakDnCol sqrtQ c).getD i false }

/-- `DailyFeatureETL.calculate_features(stock_id, df)`: computes every
indicator column over the close series and returns the frame, one row per
input row (the `stock_id` argument is unused by the source body as well). -/
def calculate_features (sqrtQ : ℚ → ℚ) (stock_id : String) (df : List Kline) :
    List FeatureRow :=
  (List.range df.length).map (featureRowAt sqrtQ df)

/-- `get_kline(stock_id, start_date, end_date)`: rows of the kline table for
the instrument, both date bounds optional and inclusive (`None` = unbounded
on that side), in ascending-date table order. -/
def get_kline (db : List Kline) (stock_id : String)
    (start_date end_date : Option Int) : List Kline :=
  db.filter (fun b =>
    (b.stock_id == stock_id)
    && (match start_date with
        | none => true
        | some lo => decide (lo ≤ b.date))
    && (match end_date with
        | none => true
        | some hi => decide (b.date ≤ hi)))

/-- Fetch-window adjustment at the top of `etl_by_stock`: with
`max_window = 30`, a single-day request (`start_date == end_date` and
`start_date is not None`) widens the window start backward by
`max_window - 1 = 29` calendar days; every other request passes through. -/
def adjustedWindow (start_date end_date : Option Int) :
    Option Int × Option Int :=
  if start_date = end_date ∧ start_date ≠ none
  then (start_date.map (fun d => d - 29), end_date)
  else (start_date, end_date)

/-- Constructor state of `DailyFeatureETL`: the run identifier fixed for the
whole invocation plus the configured provenance strings. -/
structure EtlCtx where
  etl_run_id : String
  source_version : Option String
  commit_sha : Option String
  deriving DecidableEq

/-- One dict appended by the shaping loop of `etl_by_stock`, i.e. one row of
the feature_daily table. -/
structure FeatureRecord where
  stock_id : String
  trade_date : Int
  ma5 : Option ℚ
  ema12 : Option ℚ
  ema26 : Option ℚ
  macd_dif : Option ℚ
  macd_dea : Option ℚ
  macd_osc : Option ℚ
  bb_ma20 : Option ℚ
  bb_std20 : Option ℚ
  bb_upper20 : Option ℚ
  bb_lower20 : Option ℚ
  bb_width20 : Option ℚ
  bb_pos20 : Option ℚ
  bb_break_up : Option Bool
  bb_break_dn : Option Bool
  etl_run_id : String
  source_version : Option String
  commit_sha : Option String
  created_at : Int
  updated_at : Int
  deriving DecidableEq

/-- Body of the shaping loop of `etl_by_stock` for one row.  The
`None if pd.isnull(v) else v` guards are the identity on the `Option`
columns; the float columns coming from `ewm` are NaN-free so their guard
yields `some`; `pd.isnull` on a python bool is `False`, so the
`bool(v) if not pd.isnull(v) else None` shaping of the breakout flags
always takes the `bool(v)` branch.  `c` and `u` are the two successive
`datetime.now()` readings taken for this record. -/
def shapeRecord (ctx : EtlCtx) (stock_id : String) (r : FeatureRow)
    (c u : Int) : FeatureRecord :=
  { stock_id := stock_id
    trade_date := r.date
    ma5 := r.ma5
    ema12 := some r.ema12
    ema26 := some r.ema26
    macd_dif := some r.macd_dif
    macd_dea := some r.macd_dea
    macd_osc := some r.macd_osc
    bb_ma20 := r.bb_ma20
    bb_std20 := r.bb_std20
    bb_upper20 := r.bb_upper20
    bb_lower20 := r.bb_lower20
    bb_width20 := r.bb_width20
    bb_pos20 := r.bb_pos20
    bb_break_up := some r.bb_break_up
    bb_break_dn := some r.bb_break_dn
    etl_run_id := ctx.etl_run_id
    source_version := ctx.source_version
    commit_sha := ctx.commit_sha
    created_at := c
    updated_at := u }

/-- `DailyFeatureETL.etl_by_stock(stock_id, start_date, end_date)`: adjust
the fetch window, query the kline rows, return `[]` when the frame is empty,
otherwise compute the features and shape one record per row, reading the
clock twice per record in loop order. -/
def etl_by_stock (ctx : EtlCtx) (sqrtQ : ℚ → ℚ) (db : List Kline)
    (clock : Nat → Int) (stock_id : String)
    (start_date end_date : Option Int) : List FeatureRecord :=
  let w := adjustedWindow start_date end_date
  let kline_objs := get_kline db stock_id w.1 w.2
  if kline_objs.isEmpty then []
  else
    (calculate_features sqrtQ stock_id kline_objs).enum.map
      (fun p => shapeRecord ctx stock_id p.2 (clock (2 * p.1)) (clock (2 * p.1 + 1)))

/-- Key equality of the feature_daily table: `(stock_id, trade_date)`. -/
def sameKey (a b : FeatureRecord) : Bool :=
  (a.stock_id == b.stock_id) && (a.trade_date == b.trade_date)

/-- Effect of the merge on one incoming row: `ON CONFLICT (stock_id,
trade_date) DO UPDATE` overwrites every non-key column of the matching
stored row — since the keys agree this replaces the stored row by the
incoming one — and an unmatched row is inserted. -/
def upsertOne (store : List FeatureRecord) (r : FeatureRecord) :
    List FeatureRecord :=
  if store.any (fun x => sameKey x r)
  then store.map (fun x => if sameKey x r then r else x)
  else store ++ [r]

/-- Execution of the single multi-row upsert statement against the
session's pending view: rows are merged one at a time; `failAt = some k`
models a database error raised while processing row `k` of the statement
(work already applied to the pending view is not yet durable). -/
def executeUpsertFrom (failAt : Option Nat) (k : Nat)
    (pending : List FeatureRecord) :
    List FeatureRecord → Except String (List FeatureRecord)
  | [] => .ok pending
  | r :: rs =>
    if failAt = some k then .error "upsert failed"
    else executeUpsertFrom failAt (k + 1) (upsertOne pending r) rs

/-- `FeatureDaily.bulk_upsert_to_db(dict_list)`: empty input returns 0
without touching the store; otherwise the one merge statement runs inside a
transaction — `commit` publishes the pending view as the new durable store
and returns the statement's rowcount, while any failure rolls the batch
back (`session.rollback()`, the durable store is untouched) and the error
is re-raised.  The result pairs the post-call durable store with either the
rowcount or the propagated error. -/
def bulk_upsert_to_db (store : List FeatureRecord)
    (dict_list : List FeatureRecord) (failAt : Option Nat) :
    List FeatureRecord × Except String Nat :=
  if dict_list.isEmpty then (store, .ok 0)
  else
    match executeUpsertFrom failAt 0 store dict_list with
    | .ok pending => (pending, .ok dict_list.length)
    | .error e => (store, .error e)

/- Helper lemmas: lengths and per-index characterisations of the columns. -/

theorem length_rollingCol (w : Nat) (f : List ℚ → ℚ) (xs : List ℚ) :
    (rollingCol w f xs).length = xs.length := by
  simp [rollingCol]

theorem getElem_rollingCol (w : Nat) (f : List ℚ → ℚ) (xs : List ℚ) (i : Nat)
    (h : i < (rollingCol w f xs).length) :
    (rollingCol w f xs)[i]
      = if w ≤ i + 1 then some (f (windowEnd w xs i)) else none := by
  simp [rollingCol, List.getElem_map, List.getElem_range]

theorem length_ewmFrom (a p : ℚ) (xs : List ℚ) :
    (ewmFrom a p xs).length = xs.length := by
  induction xs generalizing p with
  | nil => simp [ewmFrom]
  | cons x xs ih => simp [ewmFrom, ih]

theorem length_ewm (a : ℚ) (xs : List ℚ) : (ewm a xs).length = xs.length := by
  cases xs with
  | nil => simp [ewm]
  | cons x rest => simp [ewm, length_ewmFrom]

theorem length_closesOf (df : List Kline) : (closesOf df).length = df.length := by
  simp [closesOf]

theorem length_ma5Col (c : List ℚ) : (ma5Col c).length = c.length := by
  simp [ma5Col, length_rollingCol]

theorem length_ema12Col (c : List ℚ) : (ema12Col c).length = c.length := by
  simp [ema12Col, length_ewm]

theorem length_ema26Col (c : List ℚ) : (ema26Col c).length = c.length := by
  simp [ema26Col, length_ewm]

theorem length_macdDifCol (c : List ℚ) : (macdDifCol c).length = c.length := by
  simp [macdDifCol, length_ema12Col, length_ema26Col]

theorem length_macdDeaCol (c : List ℚ) : (macdDeaCol c).length = c.length := by
  simp [macdDeaCol, length_ewm, length_macdDifCol]

theorem length_macdOscCol (c : List ℚ) : (macdOscCol c).length = c.length := by
  simp [macdOscCol, length_macdDifCol, length_macdDeaCol]

theorem length_bbMa20Col (c : List ℚ) : (bbMa20Col c).length = c.length := by
  simp [bbMa20Col, length_rollingCol]

theorem length_bbStd20Col (q : ℚ → ℚ) (c : List ℚ) :
    (bbStd20Col q c).length = c.length := by
  simp [bbStd20Col, length_rollingCol]

theorem length_bbUpperCol (q : ℚ → ℚ) (c : List ℚ) :
    (bbUpperCol q c).length = c.length := by
  simp [bbUpperCol, length_bbMa20Col, length_bbStd20Col]

theorem length_bbLowerCol (q : ℚ → ℚ) (c : List ℚ) :
    (bbLowerCol q c).length = c.length := by
  simp [bbLowerCol, length_bbMa20Col, length_bbStd20Col]

theorem length_bbWidthCol (q : ℚ → ℚ) (c : List ℚ) :
    (bbWidthCol q c).length = c.length := by
  simp [bbWidthCol, length_bbUpperCol, length_bbLowerCol]

theorem length_bbBreakUpCol (q : ℚ → ℚ) (c : List ℚ) :
    (bbBreakUpCol q c).length = c.length := by
  simp [bbBreakUpCol, length_bbUpperCol]

theorem length_bbBreakDnCol (q : ℚ → ℚ) (c : List ℚ) :
    (bbBreakDnCol q c).length = c.length := by
  simp [bbBreakDnCol, length_bbLowerCol]

theorem length_calculate_features (q : ℚ → ℚ) (sid : String) (df : List Kline) :
    (calculate_features q sid df).length = df.length := by
  simp [calculate_features]

theorem calculate_features_getElem (q : ℚ → ℚ) (sid : String) (df : List Kline)
    (i : Nat) (h : i < (calculate_features q sid df).length) :
    (calculate_features q sid df)[i] = featureRowAt q df i := by
  simp [calculate_features, List.getElem_map, List.getElem_range]

theorem featureRowAt_date (q : ℚ → ℚ) (df : List Kline) (i : Nat)
    (h : i < df.length) :
    (featureRowAt q df i).date = df[i].date := by
  simp only [featureRowAt]
  rw [List.getD_eq_getElem _ _ (by simpa using h)]
  simp [List.getElem_map]

theorem featureRowAt_close (q : ℚ → ℚ) (df : List Kline) (i : Nat)
    (h : i < df.length) :
    (featureRowAt q df i).close = df[i].close := by
  simp only [featureRowAt]
  rw [List.getD_eq_getElem _ _ (by simpa [length_closesOf] using h)]
  simp [closesOf, List.getElem_map]

theorem featureRowAt_ma5 (q : ℚ → ℚ) (df : List Kline) (i : Nat)
    (h : i < df.length) :
    (featureRowAt q df i).ma5
      = if 5 ≤ i + 1 then some (listMean (windowEnd 5 (closesOf df) i))
        else none := by
  simp only [featureRowAt]
  rw [List.getD_eq_getElem _ _ (by simpa [length_ma5Col, length_closesOf] using h)]
  exact getElem_rollingCol 5 listMean (closesOf df) i
    (by simpa [length_rollingCol, length_closesOf] using h)

theorem featureRowAt_macd_dif (q : ℚ → ℚ) (df : List Kline) (i : Nat)
    (h : i < df.length) :
    (featureRowAt q df i).macd_dif
      = (featureRowAt q df i).ema12 - (featureRowAt q df i).ema26 := by
  simp only [featureRowAt]
  rw [List.getD_eq_getElem _ _ (by simpa [length_macdDifCol, length_closesOf] using h),
    List.getD_eq_getElem _ _ (by simpa [length_ema12Col, length_closesOf] using h),
    List.getD_eq_getElem _ _ (by simpa [length_ema26Col, length_closesOf] using h)]
  simp [macdDifCol, List.getElem_zipWith]

theorem featureRowAt_macd_osc (q : ℚ → ℚ) (df : List Kline) (i : Nat)
    (h : i < df.length) :
    (featureRowAt q df i).macd_osc
      = (featureRowAt q df i).macd_dif - (featureRowAt q df i).macd_dea := by
  simp only [featureRowAt]
  rw [List.getD_eq_getElem _ _ (by simpa [length_macdOscCol, length_closesOf] using h),
    List.getD_eq_getElem _ _ (by simpa [length_macdDifCol, length_closesOf] using h),
    List.getD_eq_getElem _ _ (by simpa [length_macdDeaCol, length_closesOf] using h)]
  simp [macdOscCol, List.getElem_zipWith]

theorem featureRowAt_upper_none_iff (q : ℚ → ℚ) (df : List Kline) (i : Nat)
    (h : i < df.length) :
    ((featureRowAt q df i).bb_upper20 = none ↔ i + 1 < 20) := by
  simp only [featureRowAt]
  rw [List.getD_eq_getElem _ _ (by simpa [length_bbUpperCol, length_closesOf] using h)]
  simp only [bbUpperCol, bbMa20Col, List.getElem_zipWith]
  rw [getElem_rollingCol 20 listMean (closesOf df) i
      (by simpa [length_rollingCol, length_closesOf] using h)]
  simp only [bbStd20Col, List.getElem_map]
  rw [getElem_rollingCol 20 sampleVar (closesOf df) i
      (by simpa [length_rollingCol, length_closesOf] using h)]
  by_cases h20 : 20 ≤ i + 1 <;> simp [h20, omap2] <;> omega

theorem featureRowAt_lower_none_iff (q : ℚ → ℚ) (df : List Kline) (i : Nat)
    (h : i < df.length) :
    ((featureRowAt q df i).bb_lower20 = none ↔ i + 1 < 20) := by
  simp only [featureRowAt]
  rw [List.getD_eq_getElem _ _ (by simpa [length_bbLowerCol, length_closesOf] using h)]
  simp only [bbLowerCol, bbMa20Col, List.getElem_zipWith]
  rw [getElem_rollingCol 20 listMean (closesOf df) i
      (by simpa [length_rollingCol, length_closesOf] using h)]
  simp only [bbStd20Col, List.getElem_map]
  rw [getElem_rollingCol 20 sampleVar (closesOf df) i
      (by simpa [length_rollingCol, length_closesOf] using h)]
  by_cases h20 : 20 ≤ i + 1 <;> simp [h20, omap2] <;> omega

theorem featureRowAt_break_up (q : ℚ → ℚ) (df : List Kline) (i : Nat)
    (h : i < df.length) :
    (featureRowAt q df i).bb_break_up
      = cmpNaN (fun a b => decide (a > b)) ((featureRowAt q df i).close)
          ((featureRowAt q df i).bb_upper20) := by
  simp only [featureRowAt]
  rw [List.getD_eq_getElem _ _ (by simpa [length_bbBreakUpCol, length_closesOf] using h),
    List.getD_eq_getElem _ _ (by simpa [length_closesOf] using h),
    List.getD_eq_getElem _ _ (by simpa [length_bbUpperCol, length_closesOf] using h)]
  simp [bbBreakUpCol, List.getElem_zipWith]

theorem featureRowAt_break_dn (q : ℚ → ℚ) (df : List Kline) (i : Nat)
    (h : i < df.length) :
    (featureRowAt q df i).bb_break_dn
      = cmpNaN (fun a b => decide (a < b)) ((featureRowAt q df i).close)
          ((featureRowAt q df i).bb_lower20) := by
  simp only [featureRowAt]
  rw [List.getD_eq_getElem _ _ (by simpa [length_bbBreakDnCol, length_closesOf] using h),
    List.getD_eq_getElem _ _ (by simpa [length_closesOf] using h),
    List.getD_eq_getElem _ _ (by simpa [length_bbLowerCol, length_closesOf] using h)]
  simp [bbBreakDnCol, List.getElem_zipWith]


theorem map_date_calculate_features (q : ℚ → ℚ) (sid : String)
    (df : List Kline) :
    (calculate_features q sid df).map FeatureRow.date = df.map Kline.date := by
  apply List.ext_getElem
  · simp [length_calculate_features]
  · intro i h1 h2
    have hd : i < df.length := by simpa using h2
    have hc : i < (calculate_features q sid df).length := by
      simpa [length_calculate_features] using hd
    simp only [List.getElem_map]
    rw [calculate_features_getElem q sid df i hc, featureRowAt_date q df i hd]

theorem length_etl_by_stock (ctx : EtlCtx) (q : ℚ → ℚ) (db : List Kline)
    (clock : Nat → Int) (sid : String) (s e : Option Int) :
    (etl_by_stock ctx q db clock sid s e).length
      = (get_kline db sid (adjustedWindow s e).1 (adjustedWindow s e).2).length := by
  unfold etl_by_stock
  by_cases hk : (get_kline db sid (adjustedWindow s e).1 (adjustedWindow s e).2).isEmpty
  · simp [hk, List.isEmpty_iff.mp hk]
  · simp [hk, length_calculate_features]

theorem etl_by_stock_getElem (ctx : EtlCtx) (q : ℚ → ℚ) (db : List Kline)
    (clock : Nat → Int) (sid : String) (s e : Option Int) (i : Nat)
    (h : i < (etl_by_stock ctx q db clock sid s e).length) :
    (etl_by_stock ctx q db clock sid s e)[i]
      = shapeRecord ctx sid
          ((calculate_features q sid
              (get_kline db sid (adjustedWindow s e).1 (adjustedWindow s e).2)).getD i
            (featureRowAt q
              (get_kline db sid (adjustedWindow s e).1 (adjustedWindow s e).2) i))
          (clock (2 * i)) (clock (2 * i + 1)) := by
  have hlen := length_etl_by_stock ctx q db clock sid s e
  by_cases hk : (get_kline db sid (adjustedWindow s e).1 (adjustedWindow s e).2).isEmpty
  · exfalso
    rw [hlen, List.isEmpty_iff.mp hk] at h
    simp at h
  · have hi : i < (calculate_features q sid
        (get_kline db sid (adjustedWindow s e).1 (adjustedWindow s e).2)).length := by
      rw [length_calculate_features]
      rw [hlen] at h
      exact h
    rw [List.getD_eq_getElem _ _ hi]
    have hetl : etl_by_stock ctx q db clock sid s e
        = (calculate_features q sid
            (get_kline db sid (adjustedWindow s e).1 (adjustedWindow s e).2)).enum.map
              (fun p => shapeRecord ctx sid p.2 (clock (2 * p.1)) (clock (2 * p.1 + 1))) := by
      simp only [etl_by_stock]
      exact if_neg (by simpa using hk)
    simp only [hetl, List.getElem_map, List.getElem_enum]

theorem map_trade_date_etl_by_stock (ctx : EtlCtx) (q : ℚ → ℚ)
    (db : List Kline) (clock : Nat → Int) (sid : String) (s e : Option Int) :
    (etl_by_stock ctx q db clock sid s e).map FeatureRecord.trade_date
      = (get_kline db sid (adjustedWindow s e).1 (adjustedWindow s e).2).map
          Kline.date := by
  apply List.ext_getElem
  · simp [length_etl_by_stock]
  · intro i h1 h2
    have hm : i < (etl_by_stock ctx q db clock sid s e).length := by simpa using h1
    have hg : i < (get_kline db sid (adjustedWindow s e).1 (adjustedWindow s e).2).length := by
      simpa using h2
    simp only [List.getElem_map]
    rw [etl_by_stock_getElem ctx q db clock sid s e i hm]
    rw [List.getD_eq_getElem _ _ (by simpa [length_calculate_features] using hg)]
    rw [calculate_features_getElem]
    simp only [shapeRecord]
    rw [featureRowAt_date q _ i hg]

theorem executeUpsertFrom_ok (failAt : Option Nat) (rs : List FeatureRecord) :
    ∀ (k : Nat) (pending out : List FeatureRecord),
      executeUpsertFrom failAt k pending rs = .ok out →
      out = rs.foldl upsertOne pending := by
  induction rs with
  | nil =>
    intro k pending out h
    simp only [executeUpsertFrom] at h
    cases h
    simp
  | cons r rs ih =>
    intro k pending out h
    by_cases hf : failAt = some k
    · simp [executeUpsertFrom, hf] at h
    · simp only [executeUpsertFrom, if_neg hf] at h
      simpa using ih (k + 1) (upsertOne pending r) out h

/- Concrete fixtures for witnesses and counterexamples. -/

/-- A fixed constructor state: one run identifier for the invocation. -/
def ctx0 : EtlCtx :=
  { etl_run_id := "run-1", source_version := some "v1", commit_sha := none }

/-- A concrete instantiation of the uninterpreted square root. -/
def sqrtId : ℚ → ℚ := fun x => x

/-- A clock that never advances between readings. -/
def clock0 : Nat → Int := fun _ => 0

/-- A clock that advances at every reading. -/
def clockTick : Nat → Int := fun k => (k : Int)

/-- A single-bar series. -/
def df1 : List Kline := [{ stock_id := "X", date := 0, close := 1 }]

/-- The spec's example series of five closes 10, 12, 11, 13, 14. -/
def df5 : List Kline :=
  [{ stock_id := "X", date := 1, close := 10 },
   { stock_id := "X", date := 2, close := 12 },
   { stock_id := "X", date := 3, close := 11 },
   { stock_id := "X", date := 4, close := 13 },
   { stock_id := "X", date := 5, close := 14 }]

/-- A store with one bar 5 days before the requested day 0 and one on it. -/
def db2 : List Kline :=
  [{ stock_id := "X", date := -5, close := 1 },
   { stock_id := "X", date := 0, close := 2 }]

/-- A malformed series: two bars on the same date for the same instrument. -/
def dbdup : List Kline :=
  [{ stock_id := "X", date := 0, close := 10 },
   { stock_id := "X", date := 0, close := 20 }]

/-- A sample feature record for exercising the sink. -/
def rec0 : FeatureRecord :=
  { stock_id := "X", trade_date := 0, ma5 := none, ema12 := some 1,
    ema26 := some 1, macd_dif := some 0, macd_dea := some 0,
    macd_osc := some 0, bb_ma20 := none, bb_std20 := none,
    bb_upper20 := none, bb_lower20 := none, bb_width20 := none,
    bb_pos20 := none, bb_break_up := some false, bb_break_dn := some false,
    etl_run_id := "run-1", source_version := none, commit_sha := none,
    created_at := 0, updated_at := 0 }

/-- A second record on a different key. -/
def rec1 : FeatureRecord := { rec0 with trade_date := 1, updated_at := 5 }

/- Claim theorems. -/

/-- C3: for a single-day request (both bounds given and equal to `d`) the
fetch window handed to the price source is exactly `[d - 29, d]`: the
adjusted window subtracts `max_window - 1 = 29` calendar days from the
start, and `get_kline` returns precisely the instrument's bars whose trade
date lies in that closed interval, both bounds inclusive. -/
theorem C3_single_day_fetch_window (d : Int) :
    adjustedWindow (some d) (some d) = (some (d - 29), some d)
    ∧ ∀ (db : List Kline) (sid : String) (b : Kline),
        b ∈ get_kline db sid (some (d - 29)) (some d)
          ↔ b ∈ db ∧ b.stock_id = sid ∧ d - 29 ≤ b.date ∧ b.date ≤ d := by
  constructor
  · simp [adjustedWindow]
  · intro db sid b
    simp [get_kline, List.mem_filter, and_assoc]

/-- C4: the feature-computation engine is total and one-to-one on rows: it
returns exactly one output row per input bar, in the same ascending order
(the date and close at every position are those of the input bar at that
position, nothing added or dropped), and the empty input series yields the
empty output series; being a total function it raises for no (short)
series. -/
theorem C4_one_row_per_input (q : ℚ → ℚ) (sid : String) (df : List Kline) :
    (calculate_features q sid df).map (fun r => (r.date, r.close))
        = df.map (fun b => (b.date, b.close))
    ∧ (calculate_features q sid df).length = df.length
    ∧ calculate_features q sid [] = [] := by
  refine ⟨?_, length_calculate_features q sid df, by simp [calculate_features]⟩
  apply List.ext_getElem
  · simp [length_calculate_features]
  · intro i h1 h2
    have hd : i < df.length := by simpa using h2
    have hc : i < (calculate_features q sid df).length := by
      simpa [length_calculate_features] using hd
    simp only [List.getElem_map]
    rw [calculate_features_getElem q sid df i hc,
      featureRowAt_date q df i hd, featureRowAt_close q df i hd]

/-- C5: `ma5` at row `i` equals the arithmetic mean of the trailing five
closes (rows `i-4` … `i`) as soon as the row has at least four predecessors,
and is null on the first four rows; consequently every row of a series
shorter than five observations has null `ma5`. -/
theorem C5_ma5_trailing_mean (q : ℚ → ℚ) (sid : String) (df : List Kline)
    (i : Nat) (h : i < (calculate_features q sid df).length) :
    ((calculate_features q sid df)[i].ma5
        = if 4 ≤ i then some (listMean (windowEnd 5 (closesOf df) i)) else none)
    ∧ (df.length < 5 → (calculate_features q sid df)[i].ma5 = none) := by
  have hd : i < df.length := by simpa [length_calculate_features] using h
  rw [calculate_features_getElem q sid df i h, featureRowAt_ma5 q df i hd]
  constructor
  · by_cases h4 : 4 ≤ i
    · rw [if_pos (by omega : 5 ≤ i + 1), if_pos h4]
    · rw [if_neg (by omega : ¬5 ≤ i + 1), if_neg h4]
  · intro h5
    rw [if_neg (by omega : ¬5 ≤ i + 1)]

/-- Witness for C5 at the spec's example series of closes 10, 12, 11, 13,
14: row 4 is in range and its `ma5` is the mean 12. -/
theorem C5_ma5_trailing_mean_witness :
    4 < (calculate_features sqrtId "X" df5).length
    ∧ ((calculate_features sqrtId "X" df5).get ⟨4, by decide⟩).ma5 = some 12 := by
  refine ⟨by decide, ?_⟩
  have h := (C5_ma5_trailing_mean sqrtId "X" df5 4 (by decide)).1
  exact h.trans (by norm_num [windowEnd, closesOf, df5, listMean])

/-- C6: at every output record, `macd_dif` equals `ema12 - ema26` exactly and
`macd_osc` equals `macd_dif - macd_dea` exactly (identities of the embedded
rationals, not approximations), and the EMA and all three MACD fields are
non-null from the first row on (their `pd.isnull` shaping guards never
fire). -/
theorem C6_macd_identities (ctx : EtlCtx) (q : ℚ → ℚ) (db : List Kline)
    (clock : Nat → Int) (sid : String) (s e : Option Int) (i : Nat)
    (h : i < (etl_by_stock ctx q db clock sid s e).length) :
    ∃ a b d : ℚ,
      (etl_by_stock ctx q db clock sid s e)[i].ema12 = some a
      ∧ (etl_by_stock ctx q db clock sid s e)[i].ema26 = some b
      ∧ (etl_by_stock ctx q db clock sid s e)[i].macd_dea = some d
      ∧ (etl_by_stock ctx q db clock sid s e)[i].macd_dif = some (a - b)
      ∧ (etl_by_stock ctx q db clock sid s e)[i].macd_osc = some (a - b - d) := by
  have hg : i < (get_kline db sid (adjustedWindow s e).1 (adjustedWindow s e).2).length := by
    rw [← length_etl_by_stock ctx q db clock sid s e]
    exact h
  rw [etl_by_stock_getElem ctx q db clock sid s e i h]
  rw [List.getD_eq_getElem _ _ (by simpa [length_calculate_features] using hg)]
  rw [calculate_features_getElem]
  refine ⟨(featureRowAt q (get_kline db sid (adjustedWindow s e).1 (adjustedWindow s e).2) i).ema12,
    (featureRowAt q (get_kline db sid (adjustedWindow s e).1 (adjustedWindow s e).2) i).ema26,
    (featureRowAt q (get_kline db sid (adjustedWindow s e).1 (adjustedWindow s e).2) i).macd_dea,
    ?_, ?_, ?_, ?_, ?_⟩
  · simp [shapeRecord]
  · simp [shapeRecord]
  · simp [shapeRecord]
  · simp only [shapeRecord]
    rw [featureRowAt_macd_dif q _ i hg]
  · simp only [shapeRecord]
    rw [featureRowAt_macd_osc q _ i hg, featureRowAt_macd_dif q _ i hg]

/-- Witness for C6 on a one-bar run: the single record is in range and its
EMA and MACD fields are all defined with the stated relations. -/
theorem C6_macd_identities_witness :
    0 < (etl_by_stock ctx0 sqrtId df1 clock0 "X" none none).length
    ∧ ∃ a b d : ℚ,
      ((etl_by_stock ctx0 sqrtId df1 clock0 "X" none none).get ⟨0, by decide⟩).ema12 = some a
      ∧ ((etl_by_stock ctx0 sqrtId df1 clock0 "X" none none).get ⟨0, by decide⟩).ema26 = some b
      ∧ ((etl_by_stock ctx0 sqrtId df1 clock0 "X" none none).get ⟨0, by decide⟩).macd_dea = some d
      ∧ ((etl_by_stock ctx0 sqrtId df1 clock0 "X" none none).get ⟨0, by decide⟩).macd_dif = some (a - b)
      ∧ ((etl_by_stock ctx0 sqrtId df1 clock0 "X" none none).get ⟨0, by decide⟩).macd_osc = some (a - b - d) :=
  ⟨by decide, C6_macd_identities ctx0 sqrtId df1 clock0 "X" none none 0 (by decide)⟩

/-- C10: when both bounds are absent the single-day padding branch is not
taken even though the two bounds compare equal (`None == None` but
`start_date is not None` fails): the window stays `(none, none)`, the fetch
is unbounded on both sides — every bar the source has for the instrument —
and one record per available bar is returned. -/
theorem C10_no_bounds_no_padding (ctx : EtlCtx) (q : ℚ → ℚ) (db : List Kline)
    (clock : Nat → Int) (sid : String) :
    adjustedWindow none none = (none, none)
    ∧ get_kline db sid none none = db.filter (fun b => b.stock_id == sid)
    ∧ (etl_by_stock ctx q db clock sid none none).map FeatureRecord.trade_date
        = (db.filter (fun b => b.stock_id == sid)).map Kline.date := by
  refine ⟨by simp [adjustedWindow], by simp [get_kline], ?_⟩
  rw [map_trade_date_etl_by_stock ctx q db clock sid none none]
  have hw : adjustedWindow none none = (none, none) := by simp [adjustedWindow]
  rw [hw]
  simp [get_kline]

/-- C8 amended: the orchestrator applies no precondition check at its
boundary: whatever the price query returns — including a malformed series
with duplicate dates for one instrument — flows unvalidated into the
feature computation and yields exactly one output record per fetched row;
there is no rejection path before statistics are computed. -/
theorem C8_no_input_validation (ctx : EtlCtx) (q : ℚ → ℚ) (db : List Kline)
    (clock : Nat → Int) (sid : String) (s e : Option Int) :
    (etl_by_stock ctx q db clock sid s e).length
      = (get_kline db sid (adjustedWindow s e).1 (adjustedWindow s e).2).length :=
  length_etl_by_stock ctx q db clock sid s e

/-- C8 counterexample: a series with two bars on the same date is not
rejected: the orchestrator returns two records — statistics silently
computed over the duplicated rows (the second record's ema12 blends the two
same-date closes 10 and 20 into 150/13) — instead of failing fast. -/
theorem C8_duplicate_dates_not_rejected :
    (etl_by_stock ctx0 sqrtId dbdup clock0 "X" none none).length = 2
    ∧ ((etl_by_stock ctx0 sqrtId dbdup clock0 "X" none none).get ⟨1, by decide⟩).ema12
        = some (150 / 13) := by
  refine ⟨by decide, ?_⟩
  simp [etl_by_stock, adjustedWindow, get_kline, dbdup, calculate_features,
    featureRowAt, closesOf, ema12Col, ewm, ewmFrom, shapeRecord, ctx0, clock0, sqrtId]
  norm_num

/-- C1 amended: for a single-day request (`start_date == end_date`, both
given as day `d`) the returned list has one record per date the price
source has inside the widened fetch window `[d - 29, d]`: the 29 padding
days are fetched *and included in the output* — no filtering back to the
originally requested single date takes place. -/
theorem C1_padded_rows_in_output (ctx : EtlCtx) (q : ℚ → ℚ) (db : List Kline)
    (clock : Nat → Int) (sid : String) (d : Int) :
    (etl_by_stock ctx q db clock sid (some d) (some d)).map FeatureRecord.trade_date
      = (get_kline db sid (some (d - 29)) (some d)).map Kline.date := by
  rw [map_trade_date_etl_by_stock ctx q db clock sid (some d) (some d)]
  have hw : adjustedWindow (some d) (some d) = (some (d - 29), some d) := by
    simp [adjustedWindow]
  rw [hw]

/-- C1 counterexample: instrument "X" has bars on dates -5 and 0; the
single-day request for date 0 returns records for both dates — the padding
date -5 is part of the output — not only the single requested date. -/
theorem C1_padding_dates_returned :
    (etl_by_stock ctx0 sqrtId db2 clock0 "X" (some 0) (some 0)).map
        FeatureRecord.trade_date = [-5, 0]
    ∧ ¬((etl_by_stock ctx0 sqrtId db2 clock0 "X" (some 0) (some 0)).map
        FeatureRecord.trade_date = [0]) := by
  decide

/-- C2, evaluated at the failing input: on a single-bar series the Bollinger
band at row 0 is undefined (`bb_upper20 = bb_lower20 = none`), yet the
shaped record carries `bb_break_up = some false` and
`bb_break_dn = some false` rather than null: the pandas comparison against a
NaN band yields `False`, and the shaping guard `None if pd.isnull(flag)`
never fires on a boolean column, so the flags are false-by-default exactly
where the claim requires null. -/
theorem C2_flags_false_where_band_null :
    ((etl_by_stock ctx0 sqrtId df1 clock0 "X" none none).get ⟨0, by decide⟩).bb_upper20 = none
    ∧ ((etl_by_stock ctx0 sqrtId df1 clock0 "X" none none).get ⟨0, by decide⟩).bb_lower20 = none
    ∧ ((etl_by_stock ctx0 sqrtId df1 clock0 "X" none none).get ⟨0, by decide⟩).bb_break_up = some false
    ∧ ((etl_by_stock ctx0 sqrtId df1 clock0 "X" none none).get ⟨0, by decide⟩).bb_break_dn = some false := by
  decide

/-- C9 amended: every record of one orchestrator invocation carries the
constructor's single run identifier and configured provenance, but
`created_at` and `updated_at` are two *separate, successive* clock readings
(`datetime.now()` calls `2*i` and `2*i+1` for the record at loop index
`i`): they are equal only when the clock does not advance between the two
calls, which the code does not guarantee. -/
theorem C9_run_id_and_two_clock_reads (ctx : EtlCtx) (q : ℚ → ℚ)
    (db : List Kline) (clock : Nat → Int) (sid : String) (s e : Option Int)
    (i : Nat) (h : i < (etl_by_stock ctx q db clock sid s e).length) :
    (etl_by_stock ctx q db clock sid s e)[i].etl_run_id = ctx.etl_run_id
    ∧ (etl_by_stock ctx q db clock sid s e)[i].source_version = ctx.source_version
    ∧ (etl_by_stock ctx q db clock sid s e)[i].commit_sha = ctx.commit_sha
    ∧ (etl_by_stock ctx q db clock sid s e)[i].created_at = clock (2 * i)
    ∧ (etl_by_stock ctx q db clock sid s e)[i].updated_at = clock (2 * i + 1) := by
  rw [etl_by_stock_getElem ctx q db clock sid s e i h]
  simp [shapeRecord]

/-- Witness for C9 on a one-bar run with a constant clock: the single
record is in range, carries the run identifier "run-1" and the two clock
readings of calls 0 and 1. -/
theorem C9_run_id_and_two_clock_reads_witness :
    0 < (etl_by_stock ctx0 sqrtId df1 clock0 "X" none none).length
    ∧ ((etl_by_stock ctx0 sqrtId df1 clock0 "X" none none).get ⟨0, by decide⟩).etl_run_id
        = ctx0.etl_run_id
    ∧ ((etl_by_stock ctx0 sqrtId df1 clock0 "X" none none).get ⟨0, by decide⟩).created_at
        = clock0 0
    ∧ ((etl_by_stock ctx0 sqrtId df1 clock0 "X" none none).get ⟨0, by decide⟩).updated_at
        = clock0 1 := by
  have h := C9_run_id_and_two_clock_reads ctx0 sqrtId df1 clock0 "X" none none 0 (by decide)
  exact ⟨by decide, h.1, by simpa using h.2.2.2.1, by simpa using h.2.2.2.2⟩

/-- C9 counterexample: under a clock that advances between successive
readings, the single record of a one-bar run gets `created_at = 0` but
`updated_at = 1`: the two timestamps differ, refuting "created_at and
updated_at carry the same timestamp value". -/
theorem C9_timestamps_differ :
    ((etl_by_stock ctx0 sqrtId df1 clockTick "X" none none).get ⟨0, by decide⟩).created_at = 0
    ∧ ((etl_by_stock ctx0 sqrtId df1 clockTick "X" none none).get ⟨0, by decide⟩).updated_at = 1
    ∧ ¬(((etl_by_stock ctx0 sqrtId df1 clockTick "X" none none).get ⟨0, by decide⟩).created_at
        = ((etl_by_stock ctx0 sqrtId df1 clockTick "X" none none).get ⟨0, by decide⟩).updated_at) := by
  decide

/-- C7: the sink is transactional per batch: a successful call's new durable
store is exactly the whole batch merged in order on the (stock_id,
trade_date) key with the returned count the batch size (the empty batch
returns 0 and touches nothing), while a call that fails anywhere during the
merge leaves the durable store exactly as it was before the call and
propagates the error to the caller — no automatic retry, no partial batch
state. -/
theorem C7_bulk_upsert_transactional (store batch : List FeatureRecord)
    (failAt : Option Nat) :
    (∀ st n, bulk_upsert_to_db store batch failAt = (st, Except.ok n) →
        st = batch.foldl upsertOne store ∧ n = batch.length)
    ∧ (∀ st msg, bulk_upsert_to_db store batch failAt = (st, Except.error msg) →
        st = store) := by
  unfold bulk_upsert_to_db
  by_cases hb : batch.isEmpty
  · have hbe := List.isEmpty_iff.mp hb
    subst hbe
    rw [if_pos hb]
    constructor
    · intro st n h
      simp only [Prod.mk.injEq] at h
      obtain ⟨h1, h2⟩ := h
      simp only [Except.ok.injEq] at h2
      exact ⟨h1.symm, h2.symm⟩
    · intro st msg h
      simp only [Prod.mk.injEq] at h
      exact absurd h.2 (by simp)
  · rw [if_neg hb]
    cases hex : executeUpsertFrom failAt 0 store batch with
    | ok pending =>
      constructor
      · intro st n h
        simp only [Prod.mk.injEq] at h
        obtain ⟨h1, h2⟩ := h
        simp only [Except.ok.injEq] at h2
        exact ⟨h1 ▸ executeUpsertFrom_ok failAt batch 0 store pending hex, h2.symm⟩
      · intro st msg h
        simp only [Prod.mk.injEq] at h
        exact absurd h.2 (by simp)
    | error msg =>
      constructor
      · intro st n h
        simp only [Prod.mk.injEq] at h
        exact absurd h.2 (by simp)
      · intro st m h
        simp only [Prod.mk.injEq] at h
        exact h.1.symm
